import Mathlib

/-!
# Routine load task executor

A shallow embedding of `be/src/runtime/routine_load/routine_load_task_executor.cpp`
(`RoutineLoadTaskExecutor::submit_task`, `exec_task`, `err_handler` and the finish
callback that `submit_task` binds to `exec_task`).

The executor is stateful, so the embedding is explicit state passing over `State`:
the heap of task contexts, the pipes, the active task map, the queue of the worker
pool, the pipe registry and a trace of the calls the executor makes.  Heap cells are
named by addresses; dereferencing an address that is not live has no defined result
and is `none`.  Each function runs to completion on its own: `submit_task` and the
finish callback hold the executor lock for their whole body, and `exec_task` touches
only its own context, its own pipe and the entries under its own id.

Classes whose code is not part of the translated file (`Status`, `StreamLoadContext`,
`LoadStreamMgr`, `StreamLoadExecutor`, `DataConsumer`, `StreamLoadPipe`,
`PriorityThreadPool`) enter either as parameters (the statuses they return) or as
small definitions whose doc comment says what they are modelled from.
-/

namespace doris

/-! ## Finite maps (`std::map`) as association lists -/

/-- A finite map with keys `κ` and values `ν`; only lookups are observed, so the
order of the entries carries no meaning. -/
abbrev Map (κ ν : Type) := List (κ × ν)

namespace Map

variable {κ ν : Type} [DecidableEq κ]

/-- The value stored under `k` (`std::map::find`), if any. -/
def find : Map κ ν → κ → Option ν
  | [], _ => none
  | (k', v) :: m, k => if k' = k then some v else find m k

/-- Remove every entry stored under `k` (`std::map::erase(key)`). -/
def erase (m : Map κ ν) (k : κ) : Map κ ν :=
  m.filter (fun e => decide (e.1 ≠ k))

/-- The assignment `m[k] = v`: the entry under `k` is created or overwritten. -/
def insert (m : Map κ ν) (k : κ) (v : ν) : Map κ ν :=
  (k, v) :: erase m k

end Map

/-! ## Data model -/

/-- Addresses of heap objects (task contexts and pipes). -/
abbrev Ptr := Nat

/-- The allocator (`new`, `std::make_shared`): an address above every live cell of
the store `m`, hence not live. -/
def fresh_ptr {ν : Type} (m : Map Ptr ν) : Ptr :=
  (m.map (fun e => e.1)).foldr max 0 + 1

/-- Modelled from the spec: the status codes of `gen_cpp/Status_types.h` are not in
the translated sources; these are the kinds the spec names in its sections 4 and 7,
plus `INTERNAL_ERROR` for anything else. -/
inductive TStatusCode where
  | OK
  | CANCELLED
  | INVALID_ARGUMENT
  | SERVICE_UNAVAILABLE
  | INITIALIZATION_FAILED
  | REGISTRATION_FAILED
  | ALREADY_EXISTS
  | EXECUTION_FAILED
  | COMMIT_FAILED
  | INTERNAL_ERROR
  deriving DecidableEq, Repr

/-- Modelled from the spec: class `Status` (`common/status.h`) is not in the
translated sources.  A status is a code with a message. -/
structure Status where
  code : TStatusCode
  error_msg : String
  deriving DecidableEq, Repr

namespace Status

/-- The constant `Status::OK`. -/
def OK : Status := ⟨TStatusCode.OK, ""⟩

/-- The constant `Status::CANCELLED`. -/
def CANCELLED : Status := ⟨TStatusCode.CANCELLED, ""⟩

/-- The test `ok()`. -/
def ok (s : Status) : Bool := decide (s.code = TStatusCode.OK)

/-- The constructor `Status(msg)` that takes only a message.  Which code it records
is decided in `common/status.h`, which is not in the translated sources, so the code
is the parameter `error_code` (a function of the message, the most general shape a
constructor of one string can have). -/
def of_msg (error_code : String → TStatusCode) (msg : String) : Status :=
  ⟨error_code msg, msg⟩

end Status

/-- The thrift enum `TLoadSourceType`: the one variant the executor knows, and every
other tag. -/
inductive TLoadSourceType where
  | KAFKA
  | other (tag : Int)
  deriving DecidableEq, Repr

/-- The thrift enum `TLoadType`. -/
inductive TLoadType where
  | MANUAL_LOAD
  | ROUTINE_LOAD
  deriving DecidableEq, Repr

/-- The 128-bit task id (`TUniqueId` and `UniqueId`). -/
structure UniqueId where
  hi : Int
  lo : Int
  deriving DecidableEq, Repr

/-- The source-specific parameter block of a message-log task (`TKafkaLoadInfo`). -/
structure TKafkaLoadInfo where
  brokers : String
  topic : String
  partition_begin_offset : List (Int × Int)
  max_interval_s : Int
  max_batch_rows : Int
  max_batch_size : Int
  deriving DecidableEq, Repr

/-- The copy of the parameter block owned by the context
(`new KafkaLoadInfo(task.kafka_load_info)`). -/
structure KafkaLoadInfo where
  info : TKafkaLoadInfo
  deriving DecidableEq, Repr

/-- The task descriptor `TRoutineLoadTask`. -/
structure TRoutineLoadTask where
  type : TLoadSourceType
  job_id : Int
  id : UniqueId
  txn_id : Int
  auth_code : Int
  db : String
  tbl : String
  label : String
  kafka_load_info : TKafkaLoadInfo
  deriving DecidableEq, Repr

/-- The fields of `StreamLoadContext` that the executor reads or writes. -/
structure StreamLoadContext where
  load_type : TLoadType
  load_src_type : TLoadSourceType
  job_id : Int
  id : UniqueId
  txn_id : Int
  db : String
  table : String
  label : String
  auth_code : Int
  need_rollback : Bool
  kafka_info : Option KafkaLoadInfo
  status : Status
  body_sink : Option Ptr
  start_nanos : Int
  load_cost_nanos : Int
  refs : Int
  deriving DecidableEq, Repr

namespace StreamLoadContext

/-- Modelled from the spec: the constructor of `StreamLoadContext` is not in the
translated sources.  The spec (4.4 step 2) has `ref_count = 1` once `submit_task` has
taken its single reference, so a fresh context starts with no reference; it records
`start_nanos = monotonic_now()`, has no sink, an OK status and no rollback pending
until `submit_task` sets the flag. -/
def fresh (now : Int) : StreamLoadContext :=
  { load_type := TLoadType.MANUAL_LOAD
    load_src_type := TLoadSourceType.other 0
    job_id := -1
    id := ⟨0, 0⟩
    txn_id := -1
    db := ""
    table := ""
    label := ""
    auth_code := -1
    need_rollback := false
    kafka_info := none
    status := Status.OK
    body_sink := none
    start_nanos := now
    load_cost_nanos := 0
    refs := 0 }

/-- Modelled from the spec: 4.3, `ref()` increments the reference count. -/
def ref (c : StreamLoadContext) : StreamLoadContext :=
  { c with refs := c.refs + 1 }

/-- Modelled from the spec: 4.3, `unref()` decrements the count and returns true iff
the count reached zero (the caller then destroys the context). -/
def unref (c : StreamLoadContext) : Bool × StreamLoadContext :=
  (decide (c.refs - 1 = 0), { c with refs := c.refs - 1 })

end StreamLoadContext

/-- The state of a pipe that the executor can change: the one-shot cancel flag. -/
structure StreamLoadPipe where
  cancelled : Bool
  deriving DecidableEq, Repr

/-- The calls the executor makes on its collaborators, in the order it makes them. -/
inductive Event where
  | consumer_init (ctx : Ptr)
  | put (id : UniqueId) (pipe : Ptr)
  | execute_plan_fragment (ctx : Ptr)
  | consumer_start (ctx : Ptr)
  | future_get (ctx : Ptr)
  | commit_txn (txn_id : Int)
  | rollback_txn (txn_id : Int)
  | cancel (pipe : Ptr)
  | err_handler (ctx : Ptr) (st : Status)
  | finish_cb (ctx : Ptr)
  | unref (ctx : Ptr) (refs_after : Int)
  | delete_ctx (ctx : Ptr)
  deriving DecidableEq, Repr

/-- The executor together with the parts of the execution environment it touches. -/
structure State where
  /-- The live task contexts. -/
  heap : Map Ptr StreamLoadContext
  /-- The pipes. -/
  pipes : Map Ptr StreamLoadPipe
  /-- The active map `_task_map`. -/
  task_map : Map UniqueId Ptr
  /-- The jobs the worker pool has accepted: `exec_task` bound to a context and to
  the finish callback. -/
  thread_pool : List Ptr
  /-- The pipe registry (`load_stream_mgr`). -/
  load_stream_mgr : Map UniqueId Ptr
  /-- The calls made so far. -/
  trace : List Event
  deriving DecidableEq, Repr

namespace State

/-- Append a call to the trace. -/
def log (σ : State) (e : Event) : State :=
  { σ with trace := σ.trace ++ [e] }

/-- Write a context back to its heap cell. -/
def set_ctx (σ : State) (p : Ptr) (c : StreamLoadContext) : State :=
  { σ with heap := Map.insert σ.heap p c }

/-- Modelled from the spec: the destructor of `StreamLoadContext` is not in the
translated sources.  `delete ctx` frees the cell (and the parameter block the context
owns); the spec attributes no call on a collaborator to the destruction (section 9:
on failures at submission the transaction is left to the coordinator). -/
def delete_ctx (σ : State) (p : Ptr) : State :=
  { σ with heap := Map.erase σ.heap p, trace := σ.trace ++ [Event.delete_ctx p] }

/-- The idiom `if (ctx->unref()) { delete ctx; }`, where `c` is the content of the
cell `p`: release one reference and destroy the context when it was the last. -/
def unref_and_delete (σ : State) (p : Ptr) (c : StreamLoadContext) : State :=
  let r := c.unref
  let σ1 := σ.log (Event.unref p r.2.refs)
  if r.1 then σ1.delete_ctx p else σ1.set_ctx p r.2

/-- How many times `commit_txn` was called for transaction `txn`. -/
def commits (σ : State) (txn : Int) : Nat :=
  σ.trace.count (Event.commit_txn txn)

/-- How many times `rollback_txn` was called for transaction `txn`. -/
def rollbacks (σ : State) (txn : Int) : Nat :=
  σ.trace.count (Event.rollback_txn txn)

/-- How many times the finish callback was invoked on context `p`. -/
def finishes (σ : State) (p : Ptr) : Nat :=
  σ.trace.count (Event.finish_cb p)

/-- How many times `cancel` was called on pipe `q`. -/
def cancels (σ : State) (q : Ptr) : Nat :=
  σ.trace.count (Event.cancel q)

end State

/-! ## The finish callback and `submit_task` -/

/-- The lambda that `submit_task` binds as the finish callback of `exec_task`:
under the lock, erase the id from the active map, then `unref` the context and
delete it when that was the last reference. -/
def finish_callback (σ : State) (ctx : Ptr) : Option State :=
  match Map.find σ.heap ctx with
  | none => none
  | some c =>
    let σ1 : State := { σ with task_map := Map.erase σ.task_map c.id }
    some (σ1.unref_and_delete ctx c)

/-- The function `RoutineLoadTaskExecutor::submit_task`.  `error_code` is the code
recorded by `Status(msg)`, `offer_accepted` is what `_thread_pool->offer` answers and
`now` is the clock reading taken by the constructor of the context. -/
def submit_task (error_code : String → TStatusCode) (offer_accepted : Bool) (now : Int)
    (σ : State) (task : TRoutineLoadTask) : Status × State :=
  match Map.find σ.task_map task.id with
  | some _ =>
    -- already submitted
    (Status.OK, σ)
  | none =>
    -- create the context
    let ctx : Ptr := fresh_ptr σ.heap
    let c : StreamLoadContext :=
      { StreamLoadContext.fresh now with
        load_type := TLoadType.ROUTINE_LOAD
        load_src_type := task.type
        job_id := task.job_id
        id := task.id
        txn_id := task.txn_id
        db := task.db
        table := task.tbl
        label := task.label
        auth_code := task.auth_code
        need_rollback := true }
    let σ0 : State := { σ with heap := Map.insert σ.heap ctx c }
    -- set source related params
    match task.type with
    | TLoadSourceType.KAFKA =>
      let c1 := { c with kafka_info := some ⟨task.kafka_load_info⟩ }
      -- register the task
      let c2 := c1.ref
      let σ1 : State := { σ0.set_ctx ctx c2 with task_map := Map.insert σ0.task_map c2.id ctx }
      -- offer the task to thread pool
      if !offer_accepted then
        -- failed to submit task, clear and return
        let σ2 : State := { σ1 with task_map := Map.erase σ1.task_map c2.id }
        (Status.of_msg error_code "failed to submit routine load task",
          σ2.unref_and_delete ctx c2)
      else
        (Status.OK, { σ1 with thread_pool := σ1.thread_pool ++ [ctx] })
    | TLoadSourceType.other _ =>
      (Status.of_msg error_code "unknown load source type", σ0.delete_ctx ctx)

/-! ## Collaborators of `exec_task` -/

/-- The statuses the collaborators return during one run of `exec_task`
(`consumer->init()`, `load_stream_mgr()->put`, `execute_plan_fragment`,
`consumer->start()`, `ctx->future.get()`, `commit_txn`), and the clock reading taken
after the future completed. -/
structure Outcomes where
  init : Status
  put : Status
  execute_plan_fragment : Status
  start : Status
  future : Status
  commit : Status
  now : Int
  deriving DecidableEq, Repr

/-- Modelled from the spec: `StreamLoadPipe::cancel` is not in the translated
sources.  4.1: cancel sets the one-shot flag (a second cancel changes nothing); 4.5:
the registry entry of the pipe is removed "when the executor cancels".  A non-null
`shared_ptr` always designates a live pipe, so the call cannot fail. -/
def pipe_cancel (σ : State) (pipe : Ptr) : State :=
  { σ with
    pipes := Map.insert σ.pipes pipe ⟨true⟩
    load_stream_mgr := σ.load_stream_mgr.filter (fun e => decide (e.2 ≠ pipe))
    trace := σ.trace ++ [Event.cancel pipe] }

/-- Modelled from the spec: `LoadStreamMgr::put` is not in the translated sources.
The status is the one given; on OK the registry maps the id to the pipe (4.5). -/
def load_stream_mgr_put (st : Status) (σ : State) (id : UniqueId) (pipe : Ptr) : State :=
  let σ1 := σ.log (Event.put id pipe)
  if st.ok then { σ1 with load_stream_mgr := Map.insert σ1.load_stream_mgr id pipe } else σ1

/-- Modelled from the spec: `ctx->future.get()` returns when the plan fragment has
completed, and 4.5 says the registry entry is removed "when the fragment completes". -/
def future_get (σ : State) (ctx : Ptr) (c : StreamLoadContext) : State :=
  let σ1 := σ.log (Event.future_get ctx)
  { σ1 with load_stream_mgr := Map.erase σ1.load_stream_mgr c.id }

/-- Modelled from the spec: `StreamLoadExecutor::commit_txn` is not in the translated
sources.  4.4 step 8 and section 7: `need_rollback` is cleared iff the commit
succeeds. -/
def commit_txn (st : Status) (σ : State) (ctx : Ptr) (c : StreamLoadContext) : State :=
  let σ1 := σ.log (Event.commit_txn c.txn_id)
  if st.ok then σ1.set_ctx ctx { c with need_rollback := false } else σ1

/-- Modelled from the spec: `StreamLoadExecutor::rollback_txn` is not in the
translated sources.  4.6: best effort, it never triggers another rollback; the
executor ignores what it returns. -/
def rollback_txn (σ : State) (c : StreamLoadContext) : State :=
  σ.log (Event.rollback_txn c.txn_id)

/-! ## `err_handler` and `exec_task` -/

/-- The function `RoutineLoadTaskExecutor::err_handler`. -/
def err_handler (σ : State) (ctx : Ptr) (st : Status) (_err_msg : String) : Option State :=
  match Map.find σ.heap ctx with
  | none => none
  | some c =>
    let σ0 := σ.log (Event.err_handler ctx st)
    let c1 := { c with status := st }
    let σ1 := σ0.set_ctx ctx c1
    let σ2 :=
      if c1.need_rollback then
        (rollback_txn σ1 c1).set_ctx ctx { c1 with need_rollback := false }
      else σ1
    match c1.body_sink with
    | some pipe => some (pipe_cancel σ2 pipe)
    | none => some σ2

/-- The call `cb(ctx)` of the finish callback. -/
def invoke_cb (cb : State → Ptr → Option State) (σ : State) (ctx : Ptr) : Option State :=
  cb (σ.log (Event.finish_cb ctx)) ctx

/-- The macro `HANDLE_ERROR(stmt, err_msg)` of `exec_task`: `st` is the status of the
statement and `σ` the state after it ran; when the status is not OK the error handler
runs, the finish callback is invoked and `exec_task` returns, otherwise the rest `k`
of `exec_task` runs. -/
def HANDLE_ERROR (st : Status) (err_msg : String) (cb : State → Ptr → Option State)
    (σ : State) (ctx : Ptr) (k : State → Option State) : Option State :=
  if !st.ok then
    match err_handler σ ctx st err_msg with
    | none => none
    | some σ1 => invoke_cb cb σ1 ctx
  else k σ

/-- The function `RoutineLoadTaskExecutor::exec_task`, run to completion.  The pipe
is a fresh cell that is not cancelled; the consumer bound to it is present only through
the statuses of its `init` and `start`. -/
def exec_task (o : Outcomes) (σ : State) (ctx : Ptr) (cb : State → Ptr → Option State) :
    Option State :=
  match Map.find σ.heap ctx with
  | none => none
  | some c =>
    -- create pipe and consumer
    match c.load_src_type with
    | TLoadSourceType.KAFKA =>
      let pipe : Ptr := fresh_ptr σ.pipes
      let c1 := { c with body_sink := some pipe }
      let σ0 : State :=
        { σ with
          pipes := Map.insert σ.pipes pipe ⟨false⟩
          heap := Map.insert σ.heap ctx c1 }
      HANDLE_ERROR o.init "failed to init consumer" cb (σ0.log (Event.consumer_init ctx)) ctx
        fun σ1 =>
      -- must put pipe before executing plan fragment
      HANDLE_ERROR o.put "failed to add pipe" cb (load_stream_mgr_put o.put σ1 c1.id pipe) ctx
        fun σ2 =>
      -- execute plan fragment, async
      HANDLE_ERROR o.execute_plan_fragment "failed to execute plan fragment" cb
        (σ2.log (Event.execute_plan_fragment ctx)) ctx fun σ3 =>
      -- start to consume, this may block a while
      HANDLE_ERROR o.start "consuming failed" cb (σ3.log (Event.consumer_start ctx)) ctx
        fun σ4 =>
      -- wait for consumer finished
      HANDLE_ERROR o.future "consume failed" cb (future_get σ4 ctx c1) ctx fun σ5 =>
      let c2 := { c1 with load_cost_nanos := o.now - c1.start_nanos }
      let σ6 := σ5.set_ctx ctx c2
      -- commit txn
      HANDLE_ERROR o.commit "commit failed" cb (commit_txn o.commit σ6 ctx c2) ctx fun σ7 =>
      invoke_cb cb σ7 ctx
    | TLoadSourceType.other _ =>
      match err_handler σ ctx Status.CANCELLED "unknown routine load task type" with
      | none => none
      | some σ1 => invoke_cb cb σ1 ctx

/-- Whether every step before `commit_txn` returned OK. -/
def Outcomes.before_commit_ok (o : Outcomes) : Bool :=
  o.init.ok && o.put.ok && o.execute_plan_fragment.ok && o.start.ok && o.future.ok

/-- A callback that does nothing: run with it, `exec_task` returns the state in which
it invokes its callback (the invocation itself already recorded in the trace). -/
def no_callback (σ : State) (_ctx : Ptr) : Option State := some σ

/-! ## Example states -/

/-- The empty executor: nothing allocated, nothing active. -/
def State.empty : State :=
  { heap := [], pipes := [], task_map := [], thread_pool := [],
    load_stream_mgr := [], trace := [] }

/-- A message-log task descriptor. -/
def task_A : TRoutineLoadTask :=
  { type := TLoadSourceType.KAFKA, job_id := 7, id := ⟨0, 1⟩, txn_id := 42, auth_code := 5,
    db := "db", tbl := "t", label := "l",
    kafka_load_info := ⟨"b:9092", "topic", [(0, 100)], 10, 3, 1024⟩ }

/-- Every code is the same for `Status(msg)`. -/
def const_code (c : TStatusCode) : String → TStatusCode := fun _ => c

/-- The executor after `task_A` was submitted and accepted by the pool. -/
def state_A : State :=
  (submit_task (const_code TStatusCode.INTERNAL_ERROR) true 0 State.empty task_A).2

/-- The context of `task_A` in `state_A`; it lives at address 1. -/
def ctx_A : StreamLoadContext :=
  { load_type := TLoadType.ROUTINE_LOAD
    load_src_type := TLoadSourceType.KAFKA
    job_id := 7
    id := ⟨0, 1⟩
    txn_id := 42
    db := "db"
    table := "t"
    label := "l"
    auth_code := 5
    need_rollback := true
    kafka_info := some ⟨task_A.kafka_load_info⟩
    status := Status.OK
    body_sink := none
    start_nanos := 0
    load_cost_nanos := 0
    refs := 1 }

/-- All collaborators answer OK. -/
def all_ok : Outcomes :=
  ⟨Status.OK, Status.OK, Status.OK, Status.OK, Status.OK, Status.OK, 1000⟩

/-- Every step answers OK except `commit_txn`, which is rejected. -/
def commit_fails : Outcomes :=
  { all_ok with commit := ⟨TStatusCode.COMMIT_FAILED, "commit rejected"⟩ }

/-- The pipe is registered, then `execute_plan_fragment` fails synchronously. -/
def fragment_fails : Outcomes :=
  { all_ok with execute_plan_fragment := ⟨TStatusCode.EXECUTION_FAILED, "no fragment"⟩ }

/-- The plan fragment starts and the consumer finishes, then the future of the fragment
completes with an error. -/
def future_fails : Outcomes :=
  { all_ok with future := ⟨TStatusCode.EXECUTION_FAILED, "fragment failed"⟩ }

/-! ## The order of the steps -/

/-- The status that step `k` returns, the steps numbered from 0 in the order
`consumer.init`, registry `put`, `execute_plan_fragment`, `consumer.start`,
`future.get`, `commit_txn`. -/
def Outcomes.status_of (o : Outcomes) : Nat → Status
  | 0 => o.init
  | 1 => o.put
  | 2 => o.execute_plan_fragment
  | 3 => o.start
  | 4 => o.future
  | _ => o.commit

/-- The calls of the six steps in that order, for the context at `ctx` with content
`c` and the pipe at `pipe`. -/
def step_calls (ctx : Ptr) (c : StreamLoadContext) (pipe : Ptr) : List Event :=
  [Event.consumer_init ctx, Event.put c.id pipe, Event.execute_plan_fragment ctx,
    Event.consumer_start ctx, Event.future_get ctx, Event.commit_txn c.txn_id]

/-- The calls of the error path for status `s`: `err_handler`, then `rollback_txn` when
a rollback was pending, then `cancel` on the pipe, then the callback. -/
def error_calls (ctx : Ptr) (c : StreamLoadContext) (pipe : Ptr) (s : Status) : List Event :=
  [Event.err_handler ctx s] ++
    (if c.need_rollback then [Event.rollback_txn c.txn_id] else []) ++
    [Event.cancel pipe, Event.finish_cb ctx]

end doris

namespace doris

/-! ## Facts about finite maps -/

namespace Map

variable {κ ν : Type} [DecidableEq κ]

theorem find_erase (m : Map κ ν) (k k' : κ) :
    find (erase m k) k' = if k = k' then none else find m k' := by
  induction m with
  | nil => simp [erase, find]
  | cons e m ih =>
    obtain ⟨a, b⟩ := e
    simp only [erase] at ih ⊢
    by_cases h : a = k
    · subst h
      by_cases h' : a = k'
      · subst h'; simpa [List.filter, find] using ih
      · simpa [List.filter, find, h'] using ih
    · by_cases h' : k = k'
      · subst h'
        simp [List.filter, find, h] at ih ⊢
        exact ih
      · simp [List.filter, find, h, h'] at ih ⊢
        rw [ih]

theorem find_insert (m : Map κ ν) (k k' : κ) (v : ν) :
    find (insert m k v) k' = if k = k' then some v else find m k' := by
  by_cases h : k = k'
  · simp [insert, find, h]
  · simp [insert, find, h, find_erase]

theorem find_insert_self (m : Map κ ν) (k : κ) (v : ν) :
    find (insert m k v) k = some v := by
  simp [find_insert]

end Map

theorem le_foldr_max (l : List Nat) (a : Nat) (h : a ∈ l) : a ≤ l.foldr max 0 := by
  induction l with
  | nil => cases h
  | cons b l ih =>
    simp only [List.foldr]
    rcases List.mem_cons.mp h with h | h
    · subst h; exact le_max_left _ _
    · exact le_trans (ih h) (le_max_right _ _)

theorem find_none_of_not_mem {ν : Type} (m : Map Ptr ν) (p : Ptr)
    (h : p ∉ m.map (fun e => e.1)) : Map.find m p = none := by
  induction m with
  | nil => rfl
  | cons e m ih =>
    obtain ⟨a, b⟩ := e
    simp only [List.map, List.mem_cons, not_or] at h
    simp only [Map.find]
    rw [if_neg (fun hh => h.1 hh.symm)]
    exact ih h.2

theorem find_fresh_ptr {ν : Type} (m : Map Ptr ν) : Map.find m (fresh_ptr m) = none := by
  apply find_none_of_not_mem
  intro h
  have := le_foldr_max _ _ h
  simp only [fresh_ptr] at this
  omega

/-! ## `submit_task` -/

/-- C1: when the id of the descriptor is already a key of the active map,
`submit_task` returns OK and the whole state is what it was: the active map has the
same keys and contexts, no context was created, nothing was offered to the pool and no
call was made. -/
theorem submit_task_duplicate (error_code : String → TStatusCode) (offer_accepted : Bool)
    (now : Int) (σ : State) (task : TRoutineLoadTask)
    (h : Map.find σ.task_map task.id ≠ none) :
    submit_task error_code offer_accepted now σ task = (Status.OK, σ) := by
  unfold submit_task
  cases hf : Map.find σ.task_map task.id with
  | none => exact absurd hf h
  | some p => rfl

theorem submit_task_duplicate_witness :
    Map.find state_A.task_map task_A.id ≠ none ∧
      submit_task (const_code TStatusCode.INTERNAL_ERROR) true 5 state_A task_A
        = (Status.OK, state_A) :=
  ⟨by decide, submit_task_duplicate _ _ _ _ _ (by decide)⟩

/-- C9: for a descriptor with a new id and source type KAFKA, when the pool accepts
the offer `submit_task` returns OK, exactly one job (for the new context) is appended
to the pool queue, and the active map is the old map plus the entry id -> ctx; the
new context was not live before, every other heap cell is unchanged, and the context
holds the job id, id, transaction id, database, table, label, authentication code and
source type of the descriptor, the copy of the parameter block, `need_rollback = true`
and a reference count of 1. -/
theorem submit_task_accepted (error_code : String → TStatusCode) (now : Int) (σ : State)
    (task : TRoutineLoadTask)
    (hnew : Map.find σ.task_map task.id = none)
    (htype : task.type = TLoadSourceType.KAFKA) :
    (submit_task error_code true now σ task).1 = Status.OK ∧
      (submit_task error_code true now σ task).2.thread_pool
        = σ.thread_pool ++ [fresh_ptr σ.heap] ∧
      (∀ k, Map.find (submit_task error_code true now σ task).2.task_map k
        = if task.id = k then some (fresh_ptr σ.heap) else Map.find σ.task_map k) ∧
      Map.find σ.heap (fresh_ptr σ.heap) = none ∧
      (∀ q, q ≠ fresh_ptr σ.heap →
        Map.find (submit_task error_code true now σ task).2.heap q = Map.find σ.heap q) ∧
      Map.find (submit_task error_code true now σ task).2.heap (fresh_ptr σ.heap)
        = some
          { load_type := TLoadType.ROUTINE_LOAD
            load_src_type := TLoadSourceType.KAFKA
            job_id := task.job_id
            id := task.id
            txn_id := task.txn_id
            db := task.db
            table := task.tbl
            label := task.label
            auth_code := task.auth_code
            need_rollback := true
            kafka_info := some ⟨task.kafka_load_info⟩
            status := Status.OK
            body_sink := none
            start_nanos := now
            load_cost_nanos := 0
            refs := 1 } ∧
      (submit_task error_code true now σ task).2.trace = σ.trace ∧
      (submit_task error_code true now σ task).2.load_stream_mgr = σ.load_stream_mgr := by
  have hfresh := find_fresh_ptr σ.heap
  simp only [submit_task, hnew, htype, State.set_ctx, StreamLoadContext.ref,
    StreamLoadContext.fresh]
  refine ⟨by simp, by simp, ?_, hfresh, ?_, ?_, by simp, by simp⟩
  · intro k
    simp [Map.find_insert]
  · intro q hq
    have hq' : ¬ fresh_ptr σ.heap = q := fun h => hq h.symm
    simp [Map.find_insert, hq']
  · simp [Map.find_insert]

theorem submit_task_accepted_witness :
    Map.find State.empty.task_map task_A.id = none ∧
      (submit_task (const_code TStatusCode.INTERNAL_ERROR) true 0 State.empty task_A).1
        = Status.OK ∧
      (submit_task (const_code TStatusCode.INTERNAL_ERROR) true 0 State.empty task_A).2.thread_pool
        = [1] :=
  ⟨by decide,
    (submit_task_accepted (const_code TStatusCode.INTERNAL_ERROR) 0 State.empty task_A
      (by decide) (by decide)).1,
    (submit_task_accepted (const_code TStatusCode.INTERNAL_ERROR) 0 State.empty task_A
      (by decide) (by decide)).2.1⟩

/-! ## `err_handler` -/

/-- C8: for every live context and every status, `err_handler` returns; afterwards
the status of the context is `st` and `need_rollback` is false; `rollback_txn` was
called once for the transaction of the context if `need_rollback` was true on entry
and not at all otherwise (and never for another transaction); when `body_sink` is not
null, `cancel` was called once on that pipe and the pipe is cancelled; and a second
call of `err_handler` on the same context returns and adds no rollback. -/
theorem err_handler_post (σ : State) (ctx : Ptr) (c : StreamLoadContext) (st : Status)
    (err_msg : String) (h : Map.find σ.heap ctx = some c) :
    ∃ σ1 c1, err_handler σ ctx st err_msg = some σ1 ∧
      Map.find σ1.heap ctx = some c1 ∧
      c1.status = st ∧
      c1.need_rollback = false ∧
      (∀ txn, σ1.rollbacks txn
        = σ.rollbacks txn + (if c.need_rollback = true ∧ txn = c.txn_id then 1 else 0)) ∧
      (∀ q, c.body_sink = some q →
        σ1.cancels q = σ.cancels q + 1 ∧ Map.find σ1.pipes q = some ⟨true⟩) ∧
      (∀ st2 msg2, ∃ σ2, err_handler σ1 ctx st2 msg2 = some σ2 ∧
        ∀ txn, σ2.rollbacks txn = σ1.rollbacks txn) := by
  cases hr : c.need_rollback <;> cases hb : c.body_sink <;>
    simp [err_handler, h, hr, hb, State.log, State.set_ctx, rollback_txn, pipe_cancel,
      State.rollbacks, State.cancels, Map.find_insert, List.count_append]
  all_goals
    refine ⟨fun txn => ?_, fun st2 txn => ?_⟩ <;>
      by_cases htx : c.txn_id = txn
    all_goals first
      | (subst htx; simp [List.count_cons])
      | (have h2 : ¬ txn = c.txn_id := fun e => htx e.symm
         simp [List.count_cons, htx, h2])

theorem err_handler_post_witness :
    Map.find state_A.heap 1 = some ctx_A ∧
      ∃ σ1 c1, err_handler state_A 1 Status.CANCELLED "" = some σ1 ∧
        Map.find σ1.heap 1 = some c1 ∧ c1.status = Status.CANCELLED ∧
        c1.need_rollback = false :=
  ⟨by decide, by
    obtain ⟨σ1, c1, h1, h2, h3, h4, _⟩ :=
      err_handler_post state_A 1 ctx_A Status.CANCELLED "" (by decide)
    exact ⟨σ1, c1, h1, h2, h3, h4⟩⟩

/-! ## `exec_task` -/

theorem Map.find_filter_none {κ ν : Type} [DecidableEq κ] (m : Map κ ν) (k : κ)
    (f : κ × ν → Bool) (h : Map.find m k = none) : Map.find (m.filter f) k = none := by
  induction m with
  | nil => rfl
  | cons e m ih =>
    obtain ⟨a, b⟩ := e
    by_cases hk : a = k
    · simp [Map.find, hk] at h
    · simp only [Map.find, hk, if_false] at h
      by_cases hf : f (a, b) = true
      · rw [List.filter_cons_of_pos hf]
        simp only [Map.find, hk, if_false]
        exact ih h
      · rw [List.filter_cons_of_neg hf]
        exact ih h

/-- Whatever the callback is, `exec_task` invokes it exactly once, as its last action,
on its own context: the run is the run with the callback that does nothing, followed
by the callback on the state that run ends in. -/
theorem exec_task_cb (o : Outcomes) (σ : State) (ctx : Ptr)
    (cb : State → Ptr → Option State) :
    exec_task o σ ctx cb = (exec_task o σ ctx no_callback).bind (fun s => cb s ctx) := by
  unfold exec_task
  cases h : Map.find σ.heap ctx with
  | none => rfl
  | some c =>
    cases hk : c.load_src_type with
    | other tag =>
      simp only [hk]
      cases err_handler σ ctx Status.CANCELLED "unknown routine load task type" <;>
        simp [invoke_cb, no_callback]
    | KAFKA =>
      simp only [hk, HANDLE_ERROR]
      cases o.init.ok <;> cases o.put.ok <;> cases o.execute_plan_fragment.ok <;>
        cases o.start.ok <;> cases o.future.ok <;> cases o.commit.ok <;>
        simp [invoke_cb, no_callback] <;>
        split <;> simp

attribute [simp] exec_task HANDLE_ERROR err_handler invoke_cb no_callback finish_callback
  State.log State.set_ctx State.delete_ctx State.unref_and_delete StreamLoadContext.unref
  rollback_txn pipe_cancel load_stream_mgr_put future_get commit_txn
  State.commits State.rollbacks State.finishes State.cancels
  Map.find_insert Map.find_erase List.count_append List.count_cons

/-- C2, as amended: on a run of `exec_task` for a task that was taken on (source type
KAFKA, `need_rollback` set), `commit_txn` is called once for the transaction when every
step before it returned OK and not at all otherwise, and `rollback_txn` is called once
when some step, `commit_txn` included, returned a status that is not OK and not at all
otherwise.  So at least one of the two is called, and both are called exactly when
`commit_txn` itself fails. -/
theorem exec_task_commit_rollback (o : Outcomes) (σ : State) (ctx : Ptr)
    (c : StreamLoadContext) (h : Map.find σ.heap ctx = some c)
    (hk : c.load_src_type = TLoadSourceType.KAFKA) (hr : c.need_rollback = true) :
    ∃ σ2, exec_task o σ ctx finish_callback = some σ2 ∧
      σ2.commits c.txn_id = σ.commits c.txn_id + (if o.before_commit_ok then 1 else 0) ∧
      σ2.rollbacks c.txn_id
        = σ.rollbacks c.txn_id + (if o.before_commit_ok && o.commit.ok then 0 else 1) := by
  by_cases h0 : c.refs - 1 = 0
  all_goals
    cases h1 : o.init.ok
    · simp [*, Outcomes.before_commit_ok]
    · cases h2 : o.put.ok
      · simp [*, Outcomes.before_commit_ok]
      · cases h3 : o.execute_plan_fragment.ok
        · simp [*, Outcomes.before_commit_ok]
        · cases h4 : o.start.ok
          · simp [*, Outcomes.before_commit_ok]
          · cases h5 : o.future.ok
            · simp [*, Outcomes.before_commit_ok]
            · cases h6 : o.commit.ok <;> simp [*, Outcomes.before_commit_ok]

theorem exec_task_commit_rollback_witness :
    Map.find state_A.heap 1 = some ctx_A ∧
      ∃ σ2, exec_task commit_fails state_A 1 finish_callback = some σ2 ∧
        σ2.commits 42 = state_A.commits 42 + 1 ∧
        σ2.rollbacks 42 = state_A.rollbacks 42 + 1 :=
  ⟨by decide,
    exec_task_commit_rollback commit_fails state_A 1 ctx_A (by decide) (by decide) (by decide)⟩

/-- C2 as stated fails: when every step returns OK and `commit_txn` is rejected, the
run calls both `commit_txn` and `rollback_txn` for transaction 42, so it is not the
case that exactly one of the two is called. -/
theorem exec_task_commit_and_rollback_both :
    (exec_task commit_fails state_A 1 finish_callback).map
        (fun s => (s.commits 42, s.rollbacks 42)) = some (1, 1) := by
  decide

/-- The run of `exec_task` up to the invocation of its callback: it returns for every
live context, invokes the callback once, keeps the id and the reference count of the
context, leaves the active map, the pool queue and every other heap cell as they were,
and neither releases a reference nor destroys a context. -/
theorem exec_task_frame (o : Outcomes) (σ : State) (ctx : Ptr) (c : StreamLoadContext)
    (h : Map.find σ.heap ctx = some c) :
    ∃ σ1 c1, exec_task o σ ctx no_callback = some σ1 ∧
      Map.find σ1.heap ctx = some c1 ∧ c1.id = c.id ∧ c1.refs = c.refs ∧
      c1.txn_id = c.txn_id ∧
      σ1.task_map = σ.task_map ∧ σ1.thread_pool = σ.thread_pool ∧
      (∀ q, ctx ≠ q → Map.find σ1.heap q = Map.find σ.heap q) ∧
      σ1.finishes ctx = σ.finishes ctx + 1 ∧
      (∀ p n, σ1.trace.count (Event.unref p n) = σ.trace.count (Event.unref p n)) ∧
      (∀ p, σ1.trace.count (Event.delete_ctx p) = σ.trace.count (Event.delete_ctx p)) := by
  cases hk : c.load_src_type with
  | other tag =>
    cases hr : c.need_rollback <;> cases hb : c.body_sink <;> simp +contextual [*]
  | KAFKA =>
    cases hr : c.need_rollback
    all_goals
      cases h1 : o.init.ok
      · simp +contextual [*]
      · cases h2 : o.put.ok
        · simp +contextual [*]
        · cases h3 : o.execute_plan_fragment.ok
          · simp +contextual [*]
          · cases h4 : o.start.ok
            · simp +contextual [*]
            · cases h5 : o.future.ok
              · simp +contextual [*]
              · cases h6 : o.commit.ok <;> simp +contextual [*]

/-- C3: on every run of `exec_task` (unknown source variant, failure of any step, or
full success) the callback is invoked exactly once: for any callback the run is the
run up to the invocation followed by the callback, and the invocation is recorded once
in the trace.  With the finish callback that `submit_task` installs the run returns,
the id of the task is erased from the active map and every other entry is unchanged,
`unref` is called once on the context, the context is destroyed when the count reaches
zero and keeps the decremented count otherwise, and no other heap cell changes. -/
theorem exec_task_finish (o : Outcomes) (σ : State) (ctx : Ptr) (c : StreamLoadContext)
    (h : Map.find σ.heap ctx = some c) :
    (∀ cb, exec_task o σ ctx cb = (exec_task o σ ctx no_callback).bind (fun s => cb s ctx)) ∧
      (∃ σ1, exec_task o σ ctx no_callback = some σ1 ∧
        σ1.finishes ctx = σ.finishes ctx + 1) ∧
      ∃ σ2, exec_task o σ ctx finish_callback = some σ2 ∧
        σ2.finishes ctx = σ.finishes ctx + 1 ∧
        σ2.task_map = Map.erase σ.task_map c.id ∧
        (∀ k, Map.find σ2.task_map k = if c.id = k then none else Map.find σ.task_map k) ∧
        σ2.trace.count (Event.unref ctx (c.refs - 1))
          = σ.trace.count (Event.unref ctx (c.refs - 1)) + 1 ∧
        (c.refs = 1 → Map.find σ2.heap ctx = none ∧
          σ2.trace.count (Event.delete_ctx ctx) = σ.trace.count (Event.delete_ctx ctx) + 1) ∧
        (c.refs ≠ 1 → (∃ c2, Map.find σ2.heap ctx = some c2 ∧ c2.refs = c.refs - 1) ∧
          σ2.trace.count (Event.delete_ctx ctx) = σ.trace.count (Event.delete_ctx ctx)) ∧
        ∀ q, ctx ≠ q → Map.find σ2.heap q = Map.find σ.heap q := by
  obtain ⟨σ1, c1, e1, hc1, hid, hrefs, -, htm, -, hheap, hfin, hun, hdel⟩ :=
    exec_task_frame o σ ctx c h
  refine ⟨exec_task_cb o σ ctx, ⟨σ1, e1, hfin⟩, ?_⟩
  have h01 : c.refs - 1 = 0 ↔ c.refs = 1 := by omega
  simp only [State.finishes] at hfin
  rw [exec_task_cb o σ ctx finish_callback, e1]
  by_cases h0 : c.refs = 1 <;>
    simp +contextual [hc1, hid, hrefs, htm, hheap, hfin, hun, hdel, h01, h0]

theorem exec_task_finish_witness :
    Map.find state_A.heap 1 = some ctx_A ∧
      ∃ σ2, exec_task all_ok state_A 1 finish_callback = some σ2 ∧
        σ2.finishes 1 = state_A.finishes 1 + 1 ∧
        σ2.task_map = Map.erase state_A.task_map ctx_A.id :=
  ⟨by decide, by
    obtain ⟨σ2, h1, h2, h3, _⟩ := (exec_task_finish all_ok state_A 1 ctx_A (by decide)).2.2
    exact ⟨σ2, h1, h2, h3⟩⟩

/-- C6: when the context is live with source type KAFKA and every collaborator
returns OK, the calls `exec_task` makes are exactly init, put, execute_plan_fragment,
start, future, `commit_txn` and the callback (so `commit_txn` once, and neither
`rollback_txn` nor `err_handler` nor `cancel`); at the invocation of the callback the
status of the context is what it was and the pipe is the sink of the context and is not
cancelled; and after the finish callback the active map has no entry for the id. -/
theorem exec_task_happy_path (o : Outcomes) (σ : State) (ctx : Ptr) (c : StreamLoadContext)
    (h : Map.find σ.heap ctx = some c) (hk : c.load_src_type = TLoadSourceType.KAFKA)
    (h1 : o.init.ok = true) (h2 : o.put.ok = true) (h3 : o.execute_plan_fragment.ok = true)
    (h4 : o.start.ok = true) (h5 : o.future.ok = true) (h6 : o.commit.ok = true) :
    (∃ σ1 c1, exec_task o σ ctx no_callback = some σ1 ∧
      σ1.trace = σ.trace ++ [Event.consumer_init ctx, Event.put c.id (fresh_ptr σ.pipes),
        Event.execute_plan_fragment ctx, Event.consumer_start ctx, Event.future_get ctx,
        Event.commit_txn c.txn_id, Event.finish_cb ctx] ∧
      Map.find σ1.heap ctx = some c1 ∧ c1.status = c.status ∧
      c1.body_sink = some (fresh_ptr σ.pipes) ∧
      Map.find σ1.pipes (fresh_ptr σ.pipes) = some ⟨false⟩) ∧
    ∃ σ2, exec_task o σ ctx finish_callback = some σ2 ∧
      Map.find σ2.task_map c.id = none ∧
      σ2.commits c.txn_id = σ.commits c.txn_id + 1 ∧
      (∀ txn, σ2.rollbacks txn = σ.rollbacks txn) ∧
      (∀ q, σ2.cancels q = σ.cancels q) ∧
      (∀ p st, σ2.trace.count (Event.err_handler p st)
        = σ.trace.count (Event.err_handler p st)) := by
  by_cases h0 : c.refs - 1 = 0 <;> simp [*]

theorem exec_task_happy_path_witness :
    Map.find state_A.heap 1 = some ctx_A ∧
      ∃ σ2, exec_task all_ok state_A 1 finish_callback = some σ2 ∧
        Map.find σ2.task_map ctx_A.id = none ∧
        σ2.commits ctx_A.txn_id = state_A.commits ctx_A.txn_id + 1 :=
  ⟨by decide, by
    obtain ⟨σ2, e, hm, hc, _⟩ :=
      (exec_task_happy_path all_ok state_A 1 ctx_A (by decide) (by decide) (by decide)
        (by decide) (by decide) (by decide) (by decide) (by decide)).2
    exact ⟨σ2, e, hm, hc⟩⟩

/-- C7: when the context is live with source type KAFKA and `need_rollback` set, every
step up to the future returns OK and `commit_txn` returns a status `s` that is not OK
(leaving `need_rollback` set), `exec_task` calls `commit_txn` once, then `err_handler`
with `s`, `rollback_txn` once and `cancel` on the pipe; when the callback is invoked
the status of the context is `s` and `need_rollback` is false; and the whole run with
the finish callback counts exactly one rollback. -/
theorem exec_task_commit_failure (o : Outcomes) (σ : State) (ctx : Ptr)
    (c : StreamLoadContext) (h : Map.find σ.heap ctx = some c)
    (hk : c.load_src_type = TLoadSourceType.KAFKA) (hr : c.need_rollback = true)
    (h1 : o.init.ok = true) (h2 : o.put.ok = true) (h3 : o.execute_plan_fragment.ok = true)
    (h4 : o.start.ok = true) (h5 : o.future.ok = true) (h6 : o.commit.ok = false) :
    (∃ σ1 c1, exec_task o σ ctx no_callback = some σ1 ∧
      σ1.trace = σ.trace ++ [Event.consumer_init ctx, Event.put c.id (fresh_ptr σ.pipes),
        Event.execute_plan_fragment ctx, Event.consumer_start ctx, Event.future_get ctx,
        Event.commit_txn c.txn_id, Event.err_handler ctx o.commit,
        Event.rollback_txn c.txn_id, Event.cancel (fresh_ptr σ.pipes), Event.finish_cb ctx] ∧
      σ1.rollbacks c.txn_id = σ.rollbacks c.txn_id + 1 ∧
      Map.find σ1.heap ctx = some c1 ∧ c1.status = o.commit ∧ c1.need_rollback = false) ∧
    ∃ σ2, exec_task o σ ctx finish_callback = some σ2 ∧
      σ2.rollbacks c.txn_id = σ.rollbacks c.txn_id + 1 ∧
      σ2.commits c.txn_id = σ.commits c.txn_id + 1 := by
  by_cases h0 : c.refs - 1 = 0 <;> simp [*]

theorem exec_task_commit_failure_witness :
    Map.find state_A.heap 1 = some ctx_A ∧
      ∃ σ1 c1, exec_task commit_fails state_A 1 no_callback = some σ1 ∧
        σ1.rollbacks ctx_A.txn_id = state_A.rollbacks ctx_A.txn_id + 1 ∧
        Map.find σ1.heap 1 = some c1 ∧ c1.status = commit_fails.commit ∧
        c1.need_rollback = false :=
  ⟨by decide, by
    obtain ⟨σ1, c1, e, _, hrb, hh, hs, hn⟩ :=
      (exec_task_commit_failure commit_fails state_A 1 ctx_A (by decide) (by decide)
        (by decide) (by decide) (by decide) (by decide) (by decide) (by decide)
        (by decide)).1
    exact ⟨σ1, c1, e, hrb, hh, hs, hn⟩⟩

/-! ## The pipe registry -/

theorem Map.find_filter_erase {κ ν : Type} [DecidableEq κ] (m : Map κ ν) (k : κ)
    (f : κ × ν → Bool) : Map.find ((Map.erase m k).filter f) k = none :=
  Map.find_filter_none _ _ _ (by simp)

theorem Map.find_filter_insert {κ ν : Type} [DecidableEq κ] (m : Map κ ν) (k : κ) (v : ν)
    (f : κ × ν → Bool) (hf : f (k, v) = false) :
    Map.find ((Map.insert m k v).filter f) k = none := by
  have hf' : ¬ f (k, v) = true := by simp [hf]
  unfold Map.insert
  rw [List.filter_cons_of_neg hf']
  exact Map.find_filter_erase m k f

/-- C10: on every run of `exec_task` in which the pipe was registered under the id of
the context (source type KAFKA, `init` and `put` returned OK), the registry has no
entry for that id when the callback is invoked and when `exec_task` has returned,
whatever the later steps return. -/
theorem exec_task_deregisters (o : Outcomes) (σ : State) (ctx : Ptr) (c : StreamLoadContext)
    (h : Map.find σ.heap ctx = some c) (hk : c.load_src_type = TLoadSourceType.KAFKA)
    (h1 : o.init.ok = true) (h2 : o.put.ok = true) :
    (∃ σ1, exec_task o σ ctx no_callback = some σ1 ∧
      σ1.trace.count (Event.put c.id (fresh_ptr σ.pipes))
        = σ.trace.count (Event.put c.id (fresh_ptr σ.pipes)) + 1 ∧
      Map.find σ1.load_stream_mgr c.id = none) ∧
    ∃ σ2, exec_task o σ ctx finish_callback = some σ2 ∧
      Map.find σ2.load_stream_mgr c.id = none := by
  by_cases h0 : c.refs - 1 = 0 <;> cases hr : c.need_rollback
  all_goals
    cases h3 : o.execute_plan_fragment.ok
    · simp [*, Map.find_filter_erase, Map.find_filter_insert]
    · cases h4 : o.start.ok
      · simp [*, Map.find_filter_erase, Map.find_filter_insert]
      · cases h5 : o.future.ok
        · simp [*, Map.find_filter_erase, Map.find_filter_insert]
        · cases h6 : o.commit.ok <;> simp [*, Map.find_filter_erase, Map.find_filter_insert]

theorem exec_task_deregisters_witness :
    Map.find state_A.heap 1 = some ctx_A ∧
      ∃ σ2, exec_task fragment_fails state_A 1 finish_callback = some σ2 ∧
        Map.find σ2.load_stream_mgr ctx_A.id = none :=
  ⟨by decide,
    (exec_task_deregisters fragment_fails state_A 1 ctx_A (by decide) (by decide)
      (by decide) (by decide)).2⟩

/-! ## The order of the steps and the short circuit -/

/-- C11: for a live context with source type KAFKA, `exec_task` makes its calls in the
order `consumer.init`, registry `put`, `execute_plan_fragment`, `consumer.start`,
`future.get`, `commit_txn`.  When all six return OK the calls are exactly these six
and then the callback.  When the steps before step `k` return OK and step `k` returns
a status `s` that is not OK, the calls are exactly the steps up to and including `k`,
then `err_handler` with `s`, `rollback_txn` if `need_rollback` was set, `cancel` on the
pipe and the callback: no later step is called (`execute_plan_fragment` only if `put`
succeeded, `commit_txn` only if the future returned OK), `err_handler` is called once,
the rollback once exactly when the flag was set, and when the callback is invoked the
status of the context is `s`, `need_rollback` is false and the pipe is cancelled. -/
theorem exec_task_short_circuit (o : Outcomes) (σ : State) (ctx : Ptr)
    (c : StreamLoadContext) (h : Map.find σ.heap ctx = some c)
    (hk : c.load_src_type = TLoadSourceType.KAFKA) :
    ((∀ j, j < 6 → (o.status_of j).ok = true) →
      ∃ σ1, (∀ cb, exec_task o σ ctx cb = cb σ1 ctx) ∧
        σ1.trace = σ.trace ++ step_calls ctx c (fresh_ptr σ.pipes) ++ [Event.finish_cb ctx]) ∧
    ∀ k, k < 6 → (∀ j, j < k → (o.status_of j).ok = true) → (o.status_of k).ok = false →
      ∃ σ1 c1, (∀ cb, exec_task o σ ctx cb = cb σ1 ctx) ∧
        exec_task o σ ctx no_callback = some σ1 ∧
        σ1.trace = σ.trace ++ (step_calls ctx c (fresh_ptr σ.pipes)).take (k + 1)
          ++ error_calls ctx c (fresh_ptr σ.pipes) (o.status_of k) ∧
        σ1.trace.count (Event.execute_plan_fragment ctx)
          = σ.trace.count (Event.execute_plan_fragment ctx) + (if 2 ≤ k then 1 else 0) ∧
        σ1.commits c.txn_id = σ.commits c.txn_id + (if k = 5 then 1 else 0) ∧
        σ1.trace.count (Event.err_handler ctx (o.status_of k))
          = σ.trace.count (Event.err_handler ctx (o.status_of k)) + 1 ∧
        σ1.rollbacks c.txn_id
          = σ.rollbacks c.txn_id + (if c.need_rollback = true then 1 else 0) ∧
        σ1.cancels (fresh_ptr σ.pipes) = σ.cancels (fresh_ptr σ.pipes) + 1 ∧
        σ1.finishes ctx = σ.finishes ctx + 1 ∧
        Map.find σ1.heap ctx = some c1 ∧ c1.status = o.status_of k ∧
        c1.need_rollback = false ∧
        Map.find σ1.pipes (fresh_ptr σ.pipes) = some ⟨true⟩ := by
  have hcb : ∀ σ1, exec_task o σ ctx no_callback = some σ1 →
      ∀ cb, exec_task o σ ctx cb = cb σ1 ctx := by
    intro σ1 e cb
    rw [exec_task_cb o σ ctx cb, e]
    rfl
  constructor
  · intro hall
    have a0 := hall 0 (by decide)
    have a1 := hall 1 (by decide)
    have a2 := hall 2 (by decide)
    have a3 := hall 3 (by decide)
    have a4 := hall 4 (by decide)
    have a5 := hall 5 (by decide)
    simp only [Outcomes.status_of] at a0 a1 a2 a3 a4 a5
    have e : ∃ σ1, exec_task o σ ctx no_callback = some σ1 ∧
        σ1.trace = σ.trace ++ step_calls ctx c (fresh_ptr σ.pipes) ++ [Event.finish_cb ctx] := by
      simp [*, step_calls]
    obtain ⟨σ1, e1, e2⟩ := e
    exact ⟨σ1, hcb σ1 e1, e2⟩
  · intro k hk6 hbefore hfail
    have b0 := hbefore 0
    have b1 := hbefore 1
    have b2 := hbefore 2
    have b3 := hbefore 3
    have b4 := hbefore 4
    have e : ∃ σ1 c1, exec_task o σ ctx no_callback = some σ1 ∧
        σ1.trace = σ.trace ++ (step_calls ctx c (fresh_ptr σ.pipes)).take (k + 1)
          ++ error_calls ctx c (fresh_ptr σ.pipes) (o.status_of k) ∧
        σ1.trace.count (Event.execute_plan_fragment ctx)
          = σ.trace.count (Event.execute_plan_fragment ctx) + (if 2 ≤ k then 1 else 0) ∧
        σ1.commits c.txn_id = σ.commits c.txn_id + (if k = 5 then 1 else 0) ∧
        σ1.trace.count (Event.err_handler ctx (o.status_of k))
          = σ.trace.count (Event.err_handler ctx (o.status_of k)) + 1 ∧
        σ1.rollbacks c.txn_id
          = σ.rollbacks c.txn_id + (if c.need_rollback = true then 1 else 0) ∧
        σ1.cancels (fresh_ptr σ.pipes) = σ.cancels (fresh_ptr σ.pipes) + 1 ∧
        σ1.finishes ctx = σ.finishes ctx + 1 ∧
        Map.find σ1.heap ctx = some c1 ∧ c1.status = o.status_of k ∧
        c1.need_rollback = false ∧
        Map.find σ1.pipes (fresh_ptr σ.pipes) = some ⟨true⟩ := by
      cases hr : c.need_rollback <;> interval_cases k <;>
        simp only [Outcomes.status_of, Nat.lt_irrefl, Nat.reduceLT, forall_const,
          false_implies] at b0 b1 b2 b3 b4 hfail <;>
        simp [*, step_calls, error_calls, Outcomes.status_of]
    obtain ⟨σ1, c1, e1, rest⟩ := e
    exact ⟨σ1, c1, hcb σ1 e1, e1, rest⟩

theorem exec_task_short_circuit_witness :
    Map.find state_A.heap 1 = some ctx_A ∧
      ∃ σ1 c1, exec_task future_fails state_A 1 no_callback = some σ1 ∧
        σ1.commits ctx_A.txn_id = state_A.commits ctx_A.txn_id + (if 4 = 5 then 1 else 0) ∧
        σ1.rollbacks ctx_A.txn_id
          = state_A.rollbacks ctx_A.txn_id + (if ctx_A.need_rollback = true then 1 else 0) ∧
        Map.find σ1.heap 1 = some c1 ∧ c1.status = future_fails.status_of 4 :=
  ⟨by decide, by
    obtain ⟨σ1, c1, _, e, _, _, hc, _, hrb, _, _, hh, hs, _⟩ :=
      (exec_task_short_circuit future_fails state_A 1 ctx_A (by decide) (by decide)).2 4
        (by decide) (by decide) (by decide)
    exact ⟨σ1, c1, e, hc, hrb, hh, hs⟩⟩

end doris
